import Mathlib

/-!
Verification of the activities registry core of
`fherling/skills-integrate-mcp-with-copilot` (`src/app.py`).

The Python program keeps a global dictionary `activities` mapping activity
names to objects with a `description`, a `schedule`, an optional
`max_participants` bound, and an ordered `participants` list.  Two route
handlers mutate it (`signup_for_activity`, `unregister_from_activity`),
one reads it (`get_activities`), a background thread (`periodic_save`)
flushes it to disk via `save_activities_to_disk`, and the `lifespan`
handler coordinates start-up and shutdown.

This file embeds those functions shallowly: the dictionary becomes an
association list, in-place mutation becomes explicit state passing on an
`AppState` record carrying the registry together with the
`activities_dirty` flag, a raised `HTTPException` becomes an
`Except.error`, and disk I/O becomes a boolean parameter saying whether
the write (or the snapshot) succeeds.
-/

set_option autoImplicit false

namespace App

/-- Errors raised by the two mutating route handlers.  In `app.py` each is
an `HTTPException` with a status code and a detail string; the four cases
here correspond one-to-one to the four `raise` sites. -/
inductive ApiError where
  | NotFound
  | AlreadyEnrolled
  | CapacityExceeded
  | NotEnrolled
  deriving DecidableEq, Repr

/-- HTTP status code attached to each error in `app.py`
(`status_code=404` for a missing activity, `status_code=400` otherwise). -/
def ApiError.statusCode : ApiError → Nat
  | .NotFound => 404
  | .AlreadyEnrolled => 400
  | .CapacityExceeded => 400
  | .NotEnrolled => 400

/-- One value of the `activities` dictionary: a JSON object with a
description, schedule text, an optional `max_participants` bound
(`activity.get("max_participants")` may return `None`), and the ordered
`participants` list of email strings. -/
structure Activity where
  description : String
  schedule : String
  max_participants : Option Nat
  participants : List String
  deriving DecidableEq, Repr

/-- The `activities` dictionary, embedded as an association list from
activity name to `Activity`. -/
abbrev Registry := List (String × Activity)

/-- Lookup `activities[activity_name]` (first entry with the given key;
a `dict` has unique keys, so first is the only one). -/
def lookupActivity : Registry → String → Option Activity
  | [], _ => none
  | p :: rest, name => if p.1 = name then some p.2 else lookupActivity rest name

/-- In-place update `activities[activity_name] = a`: every entry carrying
the key is replaced, the rest of the dictionary is untouched. -/
def updateActivity : Registry → String → Activity → Registry
  | [], _, _ => []
  | p :: rest, name, a =>
    (if p.1 = name then (p.1, a) else p) :: updateActivity rest name a

/-- The process-wide mutable state of `app.py`: the global `activities`
dictionary and the global `activities_dirty` flag. -/
structure AppState where
  activities : Registry
  activities_dirty : Bool
  deriving DecidableEq, Repr

/-- Embedding of `mark_activities_dirty`: sets the global flag. -/
def mark_activities_dirty (s : AppState) : AppState :=
  { s with activities_dirty := true }

/-- Embedding of `signup_for_activity` (`app.py` lines 115-144).  The
checks appear in source order: missing activity, duplicate participant,
capacity (only when `max_participants` is present); on success the email
is appended to the participants list and the dirty flag is set. -/
def signup_for_activity (s : AppState) (activity_name email : String) :
    Except ApiError AppState :=
  match lookupActivity s.activities activity_name with
  | none => .error .NotFound
  | some activity =>
    if email ∈ activity.participants then
      .error .AlreadyEnrolled
    else
      let appended := { activity with participants := activity.participants ++ [email] }
      let added := mark_activities_dirty
        { s with activities := updateActivity s.activities activity_name appended }
      match activity.max_participants with
      | some max_participants =>
        if activity.participants.length ≥ max_participants then
          .error .CapacityExceeded
        else
          .ok added
      | none =>
        .ok added

/-- Embedding of `unregister_from_activity` (`app.py` lines 147-167).
`list.remove(email)` removes the first occurrence, which `List.erase`
does as well; on success the dirty flag is set. -/
def unregister_from_activity (s : AppState) (activity_name email : String) :
    Except ApiError AppState :=
  match lookupActivity s.activities activity_name with
  | none => .error .NotFound
  | some activity =>
    if email ∈ activity.participants then
      let erased := { activity with participants := activity.participants.erase email }
      .ok (mark_activities_dirty
        { s with activities := updateActivity s.activities activity_name erased })
    else
      .error .NotEnrolled

/-- Run `signup_for_activity` the way the HTTP layer observes it: a raised
`HTTPException` aborts the handler before any mutation, so on error the
process state is the state the handler started from. -/
def runSignup (s : AppState) (activity_name email : String) :
    AppState × Option ApiError :=
  match signup_for_activity s activity_name email with
  | .ok s' => (s', none)
  | .error e => (s, some e)

/-- Run `unregister_from_activity` the way the HTTP layer observes it. -/
def runUnregister (s : AppState) (activity_name email : String) :
    AppState × Option ApiError :=
  match unregister_from_activity s activity_name email with
  | .ok s' => (s', none)
  | .error e => (s, some e)

/-- Configuration constant `SAVE_INTERVAL_SECONDS = 5` (`app.py` line 23):
how often the background thread batch-saves changes to disk. -/
def SAVE_INTERVAL_SECONDS : Nat := 5

/-- Configuration constant `SHUTDOWN_TIMEOUT_SECONDS = 10` (`app.py`
line 24): maximum time to wait for the background thread during
shutdown. -/
def SHUTDOWN_TIMEOUT_SECONDS : Nat := 10

/-- Outcome of one call to `save_activities_to_disk`: the resulting
process state and whether a disk write was performed (the `json.dump`
line was reached). -/
structure FlushOutcome where
  state : AppState
  wrote : Bool
  deriving DecidableEq, Repr

/-- Embedding of `save_activities_to_disk` (`app.py` lines 37-58).  The
two sources of I/O nondeterminism are passed as booleans: `snapshotOk` is
whether `copy.deepcopy` succeeds (its `except` branch returns without
writing), `writeOk` is whether `json.dump` succeeds (its `except OSError`
branch prints the error and leaves the dirty flag set).  If the flag is
clear the function returns at once without touching the disk; the flag is
cleared only after a successful write.  In every case the function
returns normally — no branch raises. -/
def save_activities_to_disk (s : AppState) (snapshotOk writeOk : Bool) :
    FlushOutcome :=
  if !s.activities_dirty then
    ⟨s, false⟩
  else if !snapshotOk then
    ⟨s, false⟩
  else if writeOk then
    ⟨{ s with activities_dirty := false }, true⟩
  else
    ⟨s, true⟩

/-- State of the background save thread.  `periodic_save` loops while the
shutdown event is unset (`Running`) and returns once it observes it
(`Stopped`). -/
inductive SchedState where
  | Running
  | Stopped
  deriving DecidableEq, Repr

/-- One iteration of the `periodic_save` loop body (`app.py` lines
66-74), parameterised by whether the shutdown event is set when
`shutdown_event.wait(SAVE_INTERVAL_SECONDS)` returns.  If the event was
set (`wait` returned `True`) the loop breaks immediately without saving;
if the wait timed out the loop calls `save_activities_to_disk` and stays
in the loop.  The second component records whether a flush was
invoked. -/
def periodic_save_step (stopSignaled : Bool) : SchedState × Bool :=
  if stopSignaled then
    (SchedState.Stopped, false)
  else
    (SchedState.Running, true)

/-- The whole `periodic_save` loop over a finite schedule of wait
outcomes (`true` = stop signal observed, `false` = timeout): returns how
many flushes were invoked before the loop exits. -/
def periodic_save_flushes : List Bool → Nat
  | [] => 0
  | stop :: rest =>
    if stop then 0 else periodic_save_flushes rest + 1

/-- Observable steps of the `lifespan` shutdown path. -/
inductive ShutdownEvent where
  | signalStop
  | joinWait (timeout : Nat)
  | flush
  deriving DecidableEq, Repr

/-- Embedding of the shutdown half of `lifespan` (`app.py` lines 87-91):
`shutdown_event.set()`, then — since `save_thread` was assigned at
startup — `save_thread.join(timeout=SHUTDOWN_TIMEOUT_SECONDS)`, then
`save_activities_to_disk()`.  The parameter records whether the thread
actually stopped within the timeout; the code never inspects `join`'s
outcome, so the trace does not depend on it. -/
def lifespan_shutdown (threadStoppedInTime : Bool) : List ShutdownEvent :=
  let _ := threadStoppedInTime
  [ShutdownEvent.signalStop,
   ShutdownEvent.joinWait SHUTDOWN_TIMEOUT_SECONDS,
   ShutdownEvent.flush]

/-- A value handed out by the process for reading the registry: either a
reference to the live `activities` object, or an independent deep copy
taken at some point in time.  Dereferencing a live reference after later
mutations sees the current registry; dereferencing a copy sees the
registry as it was when the copy was taken. -/
inductive RegistryView where
  | live
  | copied (snapshot : Registry)
  deriving DecidableEq, Repr

/-- Dereference a `RegistryView` when the live registry currently holds
`current`. -/
def observe (v : RegistryView) (current : Registry) : Registry :=
  match v with
  | .live => current
  | .copied snap => snap

/-- Embedding of `get_activities` (`app.py` lines 110-112): the handler
is `return activities` — it hands back the live dictionary object itself,
performing no copy. -/
def get_activities : RegistryView := RegistryView.live

/-- The snapshot taken inside `save_activities_to_disk` (`app.py` line
45): `copy.deepcopy(activities)` produces an independent copy of the
registry as it is at snapshot time. -/
def persistence_snapshot (reg : Registry) : RegistryView := RegistryView.copied reg

/-- Invariant on a single activity, from the spec's data model: the
participant sequence has no duplicates, and when a maximum is set the
sequence is no longer than it. -/
def activityInvariant (a : Activity) : Prop :=
  a.participants.Nodup ∧
    ∀ m, a.max_participants = some m → a.participants.length ≤ m

/-- Invariant on the whole registry: every activity satisfies
`activityInvariant`. -/
def registryInvariant (reg : Registry) : Prop :=
  ∀ p ∈ reg, activityInvariant p.2

/-- A demonstration registry used to instantiate the theorems at concrete
inputs: one activity "Chess Club", capacity 12, one participant. -/
def chessClub : Activity :=
  { description := "Learn strategies"
    schedule := "Fridays"
    max_participants := some 12
    participants := ["a@x.com"] }

/-- A demonstration process state holding only `chessClub`, with a clean
dirty flag. -/
def demoState : AppState :=
  { activities := [("Chess Club", chessClub)], activities_dirty := false }

/-- A demonstration activity that is at full capacity (max 1, one
participant). -/
def fullClub : Activity :=
  { description := "Full"
    schedule := "Mondays"
    max_participants := some 1
    participants := ["a@x.com"] }

/-- A demonstration process state holding only `fullClub`. -/
def fullState : AppState :=
  { activities := [("Full Club", fullClub)], activities_dirty := false }

section Lemmas

/-- A successful lookup returns the payload of some entry of the
registry. -/
theorem lookupActivity_mem {reg : Registry} {name : String} {a : Activity}
    (h : lookupActivity reg name = some a) : ∃ p ∈ reg, p.2 = a := by
  induction reg with
  | nil => simp [lookupActivity] at h
  | cons p rest ih =>
    by_cases hp : p.1 = name
    · refine ⟨p, by simp, ?_⟩
      simp [lookupActivity, hp] at h
      exact h
    · simp [lookupActivity, hp] at h
      obtain ⟨q, hq, hqa⟩ := ih h
      exact ⟨q, by simp [hq], hqa⟩

/-- Looking the updated key up after an update returns the new activity,
provided the key was present. -/
theorem lookupActivity_updateActivity {reg : Registry} {name : String}
    (a : Activity) {b : Activity} (h : lookupActivity reg name = some b) :
    lookupActivity (updateActivity reg name a) name = some a := by
  induction reg with
  | nil => simp [lookupActivity] at h
  | cons p rest ih =>
    by_cases hp : p.1 = name
    · simp [lookupActivity, updateActivity, hp]
    · simp [lookupActivity, updateActivity, hp] at h ⊢
      exact ih h

/-- Every entry of an updated registry is an original entry or carries
the new activity. -/
theorem mem_updateActivity {reg : Registry} {name : String} {a : Activity}
    {p' : String × Activity} (h : p' ∈ updateActivity reg name a) :
    p' ∈ reg ∨ p'.2 = a := by
  induction reg with
  | nil => simp [updateActivity] at h
  | cons p rest ih =>
    simp only [updateActivity, List.mem_cons] at h
    rcases h with h | h
    · by_cases hp : p.1 = name
      · simp [hp] at h
        right
        simp [h]
      · simp [hp] at h
        left
        simp [h]
    · rcases ih h with h' | h'
      · exact Or.inl (List.mem_cons_of_mem _ h')
      · exact Or.inr h'

/-- Updating with an invariant-satisfying activity preserves the registry
invariant. -/
theorem registryInvariant_updateActivity {reg : Registry} {name : String}
    {a : Activity} (hreg : registryInvariant reg) (ha : activityInvariant a) :
    registryInvariant (updateActivity reg name a) := by
  intro p' hp'
  rcases mem_updateActivity hp' with h | h
  · exact hreg p' h
  · rw [h]
    exact ha

end Lemmas

/-- C1: `enroll(activityName, participantId)` fails with `NotFound` when
the activity is absent; otherwise fails with `AlreadyEnrolled` when the
participant already occurs in the activity's participant sequence;
otherwise fails with `CapacityExceeded` when a maximum is set and the
current count has reached it; otherwise appends the participant at the
end of the sequence, sets the dirty flag, and returns success. -/
theorem signup_for_activity_spec (s : AppState) (name email : String) :
    (lookupActivity s.activities name = none →
      signup_for_activity s name email = .error .NotFound) ∧
    ∀ a, lookupActivity s.activities name = some a →
      (email ∈ a.participants →
        signup_for_activity s name email = .error .AlreadyEnrolled) ∧
      (email ∉ a.participants →
        ∀ m, a.max_participants = some m → m ≤ a.participants.length →
        signup_for_activity s name email = .error .CapacityExceeded) ∧
      (email ∉ a.participants →
        (∀ m, a.max_participants = some m → a.participants.length < m) →
        ∃ s', signup_for_activity s name email = .ok s' ∧
          s'.activities_dirty = true ∧
          lookupActivity s'.activities name =
            some { a with participants := a.participants ++ [email] }) := by
  constructor
  · intro hnone
    simp [signup_for_activity, hnone]
  · intro a ha
    refine ⟨?_, ?_, ?_⟩
    · intro hmem
      simp [signup_for_activity, ha, hmem]
    · intro hmem m hm hfull
      simp [signup_for_activity, ha, hmem, hm, Nat.not_lt.mpr hfull]
    · intro hmem hcap
      have heq : signup_for_activity s name email =
          Except.ok ⟨updateActivity s.activities name
            { a with participants := a.participants ++ [email] }, true⟩ := by
        cases hmax : a.max_participants with
        | none =>
          simp [signup_for_activity, mark_activities_dirty, ha, hmem, hmax]
        | some m =>
          simp [signup_for_activity, mark_activities_dirty, ha, hmem, hmax,
            Nat.not_le.mpr (hcap m hmax)]
      exact ⟨_, heq, rfl, lookupActivity_updateActivity _ ha⟩

/-- C1 witness: a successful enrollment in the demonstration state
appends the new email and sets the dirty flag. -/
theorem signup_for_activity_spec_witness :
    ∃ s', signup_for_activity demoState "Chess Club" "b@x.com" = .ok s' ∧
      s'.activities_dirty = true ∧
      lookupActivity s'.activities "Chess Club" =
        some { chessClub with participants := chessClub.participants ++ ["b@x.com"] } :=
  ((signup_for_activity_spec demoState "Chess Club" "b@x.com").2 chessClub
    (by decide)).2.2 (by decide)
    (by intro m hm; cases hm; decide)

/-- C2: `withdraw(activityName, participantId)` fails with `NotFound`
when the activity is absent; otherwise fails with `NotEnrolled` when the
participant is not in the sequence; otherwise removes exactly the (first,
hence — sequences being duplicate-free — the only) occurrence, preserving
the relative order of every other entry, sets the dirty flag, and returns
success. -/
theorem unregister_from_activity_spec (s : AppState) (name email : String) :
    (lookupActivity s.activities name = none →
      unregister_from_activity s name email = .error .NotFound) ∧
    ∀ a, lookupActivity s.activities name = some a →
      (email ∉ a.participants →
        unregister_from_activity s name email = .error .NotEnrolled) ∧
      (email ∈ a.participants →
        ∃ l₁ l₂ s', a.participants = l₁ ++ email :: l₂ ∧ email ∉ l₁ ∧
          unregister_from_activity s name email = .ok s' ∧
          s'.activities_dirty = true ∧
          lookupActivity s'.activities name =
            some { a with participants := l₁ ++ l₂ }) := by
  constructor
  · intro hnone
    simp [unregister_from_activity, hnone]
  · intro a ha
    constructor
    · intro hmem
      simp [unregister_from_activity, ha, hmem]
    · intro hmem
      obtain ⟨l₁, l₂, hnot, hsplit, herase⟩ := List.exists_erase_eq hmem
      have heq : unregister_from_activity s name email =
          Except.ok ⟨updateActivity s.activities name
            { a with participants := a.participants.erase email }, true⟩ := by
        simp [unregister_from_activity, mark_activities_dirty, ha, hmem]
      refine ⟨l₁, l₂, _, hsplit, hnot, heq, rfl, ?_⟩
      rw [show ({ a with participants := a.participants.erase email } : Activity)
            = { a with participants := l₁ ++ l₂ } by rw [herase]]
      exact lookupActivity_updateActivity _ ha

/-- Appending a fresh email below capacity preserves the per-activity
invariant. -/
theorem activityInvariant_append {a : Activity} (ha : activityInvariant a)
    {email : String} (hmem : email ∉ a.participants)
    (hcap : ∀ m, a.max_participants = some m → a.participants.length < m) :
    activityInvariant { a with participants := a.participants ++ [email] } := by
  obtain ⟨hnd, _⟩ := ha
  constructor
  · simp [List.nodup_append, hnd, hmem]
  · intro m hm
    have hm' : a.max_participants = some m := hm
    have := hcap m hm'
    simp only [List.length_append, List.length_singleton]
    omega

/-- Erasing an email preserves the per-activity invariant. -/
theorem activityInvariant_erase {a : Activity} (ha : activityInvariant a)
    (email : String) :
    activityInvariant { a with participants := a.participants.erase email } := by
  obtain ⟨hnd, hlen⟩ := ha
  refine ⟨hnd.erase email, ?_⟩
  intro m hm
  have hm' : a.max_participants = some m := hm
  exact le_trans (List.Sublist.length_le (a.participants.erase_sublist email))
    (hlen m hm')

/-- A successful signup leaves the dirty flag set and the registry
updated by appending the email. -/
theorem signup_ok_inv {s s' : AppState} {name email : String}
    (h : signup_for_activity s name email = Except.ok s') :
    ∃ a, lookupActivity s.activities name = some a ∧ email ∉ a.participants ∧
      (∀ m, a.max_participants = some m → a.participants.length < m) ∧
      s' = ⟨updateActivity s.activities name
        { a with participants := a.participants ++ [email] }, true⟩ := by
  cases hl : lookupActivity s.activities name with
  | none => simp [signup_for_activity, hl] at h
  | some a =>
    by_cases hmem : email ∈ a.participants
    · simp [signup_for_activity, hl, hmem] at h
    · cases hmax : a.max_participants with
      | none =>
        simp [signup_for_activity, mark_activities_dirty, hl, hmem, hmax] at h
        refine ⟨a, rfl, hmem, ?_, ?_⟩
        · intro m hm
          rw [hmax] at hm
          simp at hm
        · rw [← h, hmax]
      | some m =>
        by_cases hfull : a.participants.length ≥ m
        · simp [signup_for_activity, hl, hmem, hmax, hfull] at h
        · simp [signup_for_activity, mark_activities_dirty, hl, hmem, hmax,
            hfull] at h
          refine ⟨a, rfl, hmem, ?_, ?_⟩
          · intro m' hm'
            rw [hmax] at hm'
            cases hm'
            exact Nat.lt_of_not_le hfull
          · rw [← h, hmax]

/-- A successful unregistration leaves the dirty flag set and the
registry updated by erasing the email. -/
theorem unregister_ok_inv {s s' : AppState} {name email : String}
    (h : unregister_from_activity s name email = Except.ok s') :
    ∃ a, lookupActivity s.activities name = some a ∧ email ∈ a.participants ∧
      s' = ⟨updateActivity s.activities name
        { a with participants := a.participants.erase email }, true⟩ := by
  cases hl : lookupActivity s.activities name with
  | none => simp [unregister_from_activity, hl] at h
  | some a =>
    by_cases hmem : email ∈ a.participants
    · simp [unregister_from_activity, mark_activities_dirty, hl, hmem] at h
      exact ⟨a, rfl, hmem, by rw [← h]⟩
    · simp [unregister_from_activity, hl, hmem] at h

/-- C3: the two registry invariants — no duplicate participant in any
activity, and roster length never above a set maximum — are preserved by
`signup_for_activity` and `unregister_from_activity`, whether the
operation succeeds or fails. -/
theorem invariants_preserved (s : AppState) (name email : String)
    (h : registryInvariant s.activities) :
    registryInvariant (runSignup s name email).1.activities ∧
    registryInvariant (runUnregister s name email).1.activities := by
  constructor
  · cases hs : signup_for_activity s name email with
    | error e => simpa [runSignup, hs] using h
    | ok s' =>
      obtain ⟨a, hl, hmem, hcap, hs'⟩ := signup_ok_inv hs
      obtain ⟨p, hp, hpa⟩ := lookupActivity_mem hl
      have hainv : activityInvariant a := hpa ▸ h p hp
      have : registryInvariant s'.activities := by
        rw [hs']
        exact registryInvariant_updateActivity h
          (activityInvariant_append hainv hmem hcap)
      simpa [runSignup, hs] using this
  · cases hs : unregister_from_activity s name email with
    | error e => simpa [runUnregister, hs] using h
    | ok s' =>
      obtain ⟨a, hl, _, hs'⟩ := unregister_ok_inv hs
      obtain ⟨p, hp, hpa⟩ := lookupActivity_mem hl
      have hainv : activityInvariant a := hpa ▸ h p hp
      have : registryInvariant s'.activities := by
        rw [hs']
        exact registryInvariant_updateActivity h
          (activityInvariant_erase hainv email)
      simpa [runUnregister, hs] using this

/-- C3 witness: the demonstration state satisfies both invariants, and
they still hold after a signup and after an unregistration. -/
theorem invariants_preserved_witness :
    registryInvariant demoState.activities ∧
    registryInvariant (runSignup demoState "Chess Club" "b@x.com").1.activities ∧
    registryInvariant (runUnregister demoState "Chess Club" "a@x.com").1.activities := by
  have hinv : registryInvariant demoState.activities := by
    intro p hp
    simp only [demoState, List.mem_singleton] at hp
    rw [hp]
    refine ⟨by decide, ?_⟩
    intro m hm
    cases hm
    decide
  refine ⟨hinv, (invariants_preserved demoState "Chess Club" "b@x.com" hinv).1,
    (invariants_preserved demoState "Chess Club" "a@x.com" hinv).2⟩

/-- C5: enroll and withdraw are atomic on error — a failing call leaves
the process state (registry and dirty flag) exactly as it was, and the
dirty flag is set only by the successful calls. -/
theorem mutations_atomic_on_error (s : AppState) (name email : String) :
    (∀ e, (runSignup s name email).2 = some e → (runSignup s name email).1 = s) ∧
    (∀ e, (runUnregister s name email).2 = some e →
      (runUnregister s name email).1 = s) ∧
    ((runSignup s name email).2 = none →
      (runSignup s name email).1.activities_dirty = true) ∧
    ((runUnregister s name email).2 = none →
      (runUnregister s name email).1.activities_dirty = true) := by
  refine ⟨?_, ?_, ?_, ?_⟩
  · intro e he
    cases hs : signup_for_activity s name email with
    | error e' => simp [runSignup, hs]
    | ok s' => simp [runSignup, hs] at he
  · intro e he
    cases hs : unregister_from_activity s name email with
    | error e' => simp [runUnregister, hs]
    | ok s' => simp [runUnregister, hs] at he
  · intro hn
    cases hs : signup_for_activity s name email with
    | error e' => simp [runSignup, hs] at hn
    | ok s' =>
      obtain ⟨a, _, _, _, hs'⟩ := signup_ok_inv hs
      simp [runSignup, hs, hs']
  · intro hn
    cases hs : unregister_from_activity s name email with
    | error e' => simp [runUnregister, hs] at hn
    | ok s' =>
      obtain ⟨a, _, _, hs'⟩ := unregister_ok_inv hs
      simp [runUnregister, hs, hs']

/-- C5 witness: enrolling an already-enrolled email fails and leaves the
demonstration state untouched. -/
theorem mutations_atomic_on_error_witness :
    (runSignup demoState "Chess Club" "a@x.com").2 = some ApiError.AlreadyEnrolled ∧
    (runSignup demoState "Chess Club" "a@x.com").1 = demoState :=
  ⟨by decide,
   (mutations_atomic_on_error demoState "Chess Club" "a@x.com").1
     ApiError.AlreadyEnrolled (by decide)⟩

/-- C2 witness: withdrawing the enrolled "a@x.com" from the demonstration
state removes exactly that entry. -/
theorem unregister_from_activity_spec_witness :
    ∃ l₁ l₂ s', chessClub.participants = l₁ ++ "a@x.com" :: l₂ ∧ "a@x.com" ∉ l₁ ∧
      unregister_from_activity demoState "Chess Club" "a@x.com" = .ok s' ∧
      s'.activities_dirty = true ∧
      lookupActivity s'.activities "Chess Club" =
        some { chessClub with participants := l₁ ++ l₂ } :=
  ((unregister_from_activity_spec demoState "Chess Club" "a@x.com").2 chessClub
    (by decide)).2 (by decide)

/-- C4 counterexample: `get_activities` is `return activities` — it hands
back the live registry object without copying, so a subsequent successful
signup is visible through the previously returned value: what its caller
observes afterwards is the mutated registry, not the registry as it was
when the call returned. -/
theorem get_activities_not_a_copy :
    ¬ observe get_activities
        (runSignup demoState "Chess Club" "b@x.com").1.activities
      = demoState.activities := by decide

/-- C4 amended: the persistence path's snapshot (the `copy.deepcopy` in
`save_activities_to_disk`) is a deep, independent copy — later mutations
of the live registry leave it unchanged — while the `GET`-all handler
`get_activities` returns the live registry itself, through which later
mutations are observed. -/
theorem snapshot_views_spec (reg current : Registry) :
    observe (persistence_snapshot reg) current = reg ∧
    observe get_activities current = current :=
  ⟨rfl, rfl⟩

/-- C6: when the disk write fails (the `except OSError` branch of
`save_activities_to_disk`), the dirty flag stays set, the state is
otherwise untouched, the call returns normally instead of raising, and a
later flush with working storage performs the write again. -/
theorem flush_write_failure_keeps_dirty (s : AppState)
    (h : s.activities_dirty = true) :
    (save_activities_to_disk s true false).state = s ∧
    (save_activities_to_disk s true false).state.activities_dirty = true ∧
    (save_activities_to_disk s true false).wrote = true ∧
    (save_activities_to_disk (save_activities_to_disk s true false).state
      true true).wrote = true := by
  simp [save_activities_to_disk, h]

/-- C6 witness: a write failure on the dirtied demonstration state leaves
the dirty flag set. -/
theorem flush_write_failure_keeps_dirty_witness :
    (mark_activities_dirty demoState).activities_dirty = true ∧
    (save_activities_to_disk (mark_activities_dirty demoState) true
      false).state.activities_dirty = true :=
  ⟨rfl, (flush_write_failure_keeps_dirty (mark_activities_dirty demoState)
    rfl).2.1⟩

/-- C7: flushing twice in a row with no intervening mutation performs
exactly one disk write when the first flush's write succeeds: the first
clears the dirty flag, so the second call returns immediately, writes
nothing, and changes nothing. -/
theorem flush_second_call_noop (s : AppState) (snapshotOk writeOk : Bool)
    (h : (save_activities_to_disk s true true).wrote = true) :
    (save_activities_to_disk s true true).state.activities_dirty = false ∧
    (save_activities_to_disk (save_activities_to_disk s true true).state
      snapshotOk writeOk).wrote = false ∧
    (save_activities_to_disk (save_activities_to_disk s true true).state
      snapshotOk writeOk).state = (save_activities_to_disk s true true).state := by
  by_cases hd : s.activities_dirty
  · simp [save_activities_to_disk, hd]
  · simp [save_activities_to_disk, hd] at h

/-- C7 witness: on the dirtied demonstration state the first flush
writes, the second does not. -/
theorem flush_second_call_noop_witness :
    (save_activities_to_disk (mark_activities_dirty demoState) true
      true).wrote = true ∧
    (save_activities_to_disk
      (save_activities_to_disk (mark_activities_dirty demoState) true
        true).state true true).wrote = false :=
  ⟨rfl, (flush_second_call_noop (mark_activities_dirty demoState) true true
    rfl).2.1⟩

/-- C8: the `lifespan` shutdown path signals the scheduler first, then
joins it with the bounded 10-second timeout, then — whether or not the
thread stopped in time — calls the flush, exactly once, as the final
step. -/
theorem lifespan_shutdown_spec (threadStoppedInTime : Bool) :
    lifespan_shutdown threadStoppedInTime =
      [ShutdownEvent.signalStop,
       ShutdownEvent.joinWait SHUTDOWN_TIMEOUT_SECONDS,
       ShutdownEvent.flush] ∧
    SHUTDOWN_TIMEOUT_SECONDS = 10 ∧
    (lifespan_shutdown threadStoppedInTime).count ShutdownEvent.flush = 1 :=
  ⟨rfl, rfl, rfl⟩

/-- C9: one iteration of the `periodic_save` loop exits immediately
without flushing when the stop signal is observed during the 5-second
wait, and flushes and stays running when the wait times out; over a whole
run, wait outcomes after the first stop signal contribute no flushes. -/
theorem periodic_save_spec (stopSignaled : Bool) (post : List Bool) :
    SAVE_INTERVAL_SECONDS = 5 ∧
    (stopSignaled = true →
      periodic_save_step stopSignaled = (SchedState.Stopped, false)) ∧
    (stopSignaled = false →
      periodic_save_step stopSignaled = (SchedState.Running, true)) ∧
    ∀ pre, periodic_save_flushes (pre ++ true :: post) =
      periodic_save_flushes (pre ++ [true]) := by
  refine ⟨rfl, ?_, ?_, ?_⟩
  · intro h
    simp [periodic_save_step, h]
  · intro h
    simp [periodic_save_step, h]
  · intro pre
    induction pre with
    | nil => simp [periodic_save_flushes]
    | cons b rest ih =>
      by_cases hb : b <;> simp [periodic_save_flushes, hb, ih]

/-- C9 witness: a stop signal during the wait stops the loop with no
flush. -/
theorem periodic_save_spec_witness :
    periodic_save_step true = (SchedState.Stopped, false) :=
  (periodic_save_spec true []).2.1 rfl

/-- C10: the duplicate check precedes the capacity check — enrolling an
already-enrolled participant into an activity whose roster is at its
maximum fails with `AlreadyEnrolled`, not `CapacityExceeded`. -/
theorem already_enrolled_precedes_capacity (s : AppState)
    (name email : String) (a : Activity) (m : Nat)
    (hl : lookupActivity s.activities name = some a)
    (hmem : email ∈ a.participants)
    (_hmax : a.max_participants = some m)
    (_hfull : m ≤ a.participants.length) :
    signup_for_activity s name email = .error .AlreadyEnrolled := by
  simp [signup_for_activity, hl, hmem]

/-- C10 witness: `fullClub` is at capacity (max 1, one participant), yet
re-enrolling its member reports `AlreadyEnrolled`. -/
theorem already_enrolled_precedes_capacity_witness :
    signup_for_activity fullState "Full Club" "a@x.com"
      = .error .AlreadyEnrolled :=
  already_enrolled_precedes_capacity fullState "Full Club" "a@x.com" fullClub 1
    (by decide) (by decide) rfl (by decide)

end App
